import Mathlib

/-
Verification development for the sdi_pipeline alignment/combination layer.
The Python modules src/align/align.py and src/combine/combine.py are embedded
shallowly: images are rational matrices, the optional backend libraries are
oracle functions bundled in a structure, load-time import success is a record
of booleans, and Python exceptions are an explicit error type.
-/

namespace SDI

abbrev Mat := List (List ℚ)

abbrev Header := ℕ

structure HDU where
  data : Mat
  header : Header
deriving DecidableEq, Repr

inductive Image where
  | arr (a : Mat)
  | hdu (h : HDU)
deriving DecidableEq, Repr

/-- Modelled from the spec: the conversion collaborator to_np lives in the
repository's common module, which is outside src/. Per the spec it converts an
image carrier or an already-plain numeric array to a plain numeric array. -/
def to_np : Image → Mat
  | .arr a => a
  | .hdu h => h.data

inductive PyError where
  | valueError (msg : String)
  | nameError (msg : String)
  | typeError (msg : String)
  | notImplementedError (msg : String)
  | indexError (msg : String)
deriving DecidableEq, Repr

inductive ImgArg where
  | single (img : Image)
  | list (imgs : List Image)
deriving DecidableEq, Repr

structure ImregResult where
  timg : Mat
deriving DecidableEq

abbrev Transform := ℚ × ℚ → ℚ × ℚ

/-- Which optional backend imports succeeded at module load time. -/
structure Availability where
  astroalign : Bool
  skimage : Bool
  chi2 : Bool
  imreg : Bool
deriving DecidableEq, Repr

/-- The external collaborators: backend library entry points, the reference
selector ref_image (repository code outside src/, modelled from the spec as an
opaque chooser), and the point-matching routine. -/
structure Ext where
  register : Mat → Mat → Mat × Mat
  registerTranslation : Mat → Mat → ℕ → (ℚ × ℚ) × ℚ
  fftn : Mat → Mat
  fourierShift : Mat → ℚ × ℚ → Mat
  ifftn : Mat → Mat
  chi2Shift : Mat → Mat → ℚ × ℚ
  shiftnd : Mat → ℚ × ℚ → Mat
  similarity : Mat → Mat → ImregResult
  refImage : List Image → Image
  findTransform : List (ℚ × ℚ) → List (ℚ × ℚ) → Transform × ℚ

/-- The DISABLED template string of src/align/align.py. -/
def DISABLED_fmt (method mods : String) : String :=
  "Alignment method " ++ method ++ " is disabled because the " ++ mods ++
    " module(s) is/are not installed."

/-- A Python for-loop that appends one result per element and lets the first
raised exception abort the whole loop. -/
def pyMapLoop (f : α → Except PyError β) : List α → Except PyError (List β)
  | [] => .ok []
  | a :: rest =>
    match f a with
    | .error e => .error e
    | .ok b =>
      match pyMapLoop f rest with
      | .error e => .error e
      | .ok bs => .ok (b :: bs)

/-- reference if not None, else ref_image(sources). -/
def chosenRef (X : Ext) (reference : Option Image) (srcs : List Image) : Image :=
  match reference with
  | some r => r
  | none => X.refImage srcs

/-- The method dispatch chain inside the per-source loop of align. A branch
whose backend import failed raises NameError at the library call, which the
handler converts into the DISABLED ValueError. In the chi2 branch the shift is
applied to the name data, which is unbound in align.py, so that branch raises
NameError (hence the DISABLED ValueError) even when image_registration is
installed. -/
def dispatchMethod (avail : Availability) (X : Ext) (np_ref np_src : Mat)
    (method : String) : Except PyError Mat :=
  if method = "astroalign" then
    if avail.astroalign then .ok (X.register np_src np_ref).1
    else .error (.valueError (DISABLED_fmt ("astroalign") ("astroalign")))
  else if method = "skimage" then
    if avail.skimage then
      .ok (X.ifftn (X.fourierShift (X.fftn np_src)
        (X.registerTranslation np_ref np_src 100).1))
    else .error (.valueError (DISABLED_fmt ("skimage") ("scipy or numpy")))
  else if method = "chi2" then
    if avail.chi2 then
      .error (.valueError (DISABLED_fmt ("chi2") ("image_registration")))
    else
      .error (.valueError (DISABLED_fmt ("chi2") ("image_registration")))
  else if method = "imreg" then
    if avail.imreg then .ok (X.similarity np_ref np_src).timg
    else .error (.valueError (DISABLED_fmt ("imreg") ("imreg_dft")))
  else
    .error (.valueError ("Unexpected alignment method " ++ method ++ "!"))

/-- One iteration of the source loop of align: convert the source, dispatch,
and re-wrap an HDU source's output with the source's header. -/
def alignOne (avail : Availability) (X : Ext) (np_ref : Mat) (method : String)
    (source : Image) : Except PyError Image :=
  match dispatchMethod avail X np_ref (to_np source) method with
  | .error e => .error e
  | .ok output =>
    match source with
    | .hdu h => .ok (.hdu ⟨output, h.header⟩)
    | .arr _ => .ok (.arr output)

/-- align from src/align/align.py: normalize to a list, choose the reference,
align every source, and return a bare value exactly when a bare value came in. -/
def align (avail : Availability) (X : Ext) (source_s : ImgArg)
    (reference : Option Image) (method : String) : Except PyError ImgArg :=
  let srcs : List Image :=
    match source_s with
    | .list l => l
    | .single s => [s]
  let np_ref := to_np (chosenRef X reference srcs)
  match pyMapLoop (alignOne avail X np_ref method) srcs with
  | .error e => .error e
  | .ok outputs =>
    match source_s with
    | .list _ => .ok (.list outputs)
    | .single _ => .ok (.single (outputs.headD (.arr [])))

/-- Insert into a sorted list of rationals. -/
def insertSorted (x : ℚ) : List ℚ → List ℚ
  | [] => [x]
  | y :: ys => if x ≤ y then x :: y :: ys else y :: insertSorted x ys

/-- Sort a list of rationals. -/
def sortQ : List ℚ → List ℚ
  | [] => []
  | x :: xs => insertSorted x (sortQ xs)

/-- Median of a list of rationals, numpy style: middle element of the sorted
list for odd length, mean of the two middle elements for even length. -/
def medianQ (l : List ℚ) : ℚ :=
  if l.length % 2 = 1 then (sortQ l).getD (l.length / 2) 0
  else ((sortQ l).getD (l.length / 2 - 1) 0 + (sortQ l).getD (l.length / 2) 0) / 2

/-- Modelled semantics of np.median(mats, axis=0): per-pixel median across the
stack, on the shape of the first array. -/
def npMedianAxis0 (mats : List Mat) : Mat :=
  let shape : Mat := mats.headD []
  (List.range shape.length).map (fun i =>
    (List.range (shape.getD i []).length).map (fun j =>
      medianQ (mats.map (fun mm => (mm.getD i []).getD j 0))))

/-- combine from src/combine/combine.py: normalize to a list, reject any method
other than numpy before converting anything, then take the pixel-wise median. -/
def combine (hdu_s : ImgArg) (method : String) : Except PyError Mat :=
  let hdu : List Image :=
    match hdu_s with
    | .list l => l
    | .single h => [h]
  if method ≠ "numpy" then
    .error (.notImplementedError
      ("Combine method other than numpy (swarp) \n        is unimplemented."))
  else
    .ok (npMedianAxis0 (hdu.map to_np))

/-- Modelled from the spec: the point-record collaborator Source lives in the
repository's sources module, outside src/. Per the spec it is a labeled
coordinate record with two coordinate fields plus remaining fields, here an
opaque tag. -/
structure Source where
  x : ℚ
  y : ℚ
  extra : ℕ
deriving DecidableEq, Repr

/-- Modelled from the spec: Source.transform applies a 2-D coordinate transform
to the record's coordinates and preserves every other field. -/
def Source.transform (T : Transform) (s : Source) : Source :=
  ⟨(T (s.x, s.y)).1, (T (s.x, s.y)).2, s.extra⟩

structure Catalog where
  data : List Source
deriving DecidableEq, Repr

/-- sources from src/align/align.py: default the reference to catalogs[0]
(IndexError on an empty list), then for each catalog fit one transform against
the reference points with astroalign.find_transform — with no import guard, so
a missing astroalign surfaces as a raw NameError — and apply it to every record. -/
def sources (avail : Availability) (X : Ext) (catalogs : List Catalog)
    (reference : Option Catalog) : Except PyError (List (List Source)) :=
  match (match reference with
    | some r => Except.ok r
    | none =>
      match catalogs with
      | [] => Except.error (PyError.indexError ("list index out of range"))
      | c :: _ => Except.ok c) with
  | .error e => .error e
  | .ok ref =>
    pyMapLoop (fun cat =>
      if avail.astroalign then
        Except.ok (cat.data.map (Source.transform
          (X.findTransform (cat.data.map (fun s => (s.x, s.y)))
            (ref.data.map (fun r => (r.x, r.y)))).1))
      else Except.error (PyError.nameError ("name astroalign is not defined")))
      catalogs

/-- The output variant matches the input variant, with the header carried over
verbatim in the HDU case. -/
def variantMatches : Image → Image → Prop
  | .arr _, .arr _ => True
  | .hdu h, .hdu h2 => h2.header = h.header
  | _, _ => False

/-- Concrete availability record with every backend present. -/
def cAvail : Availability := ⟨true, true, true, true⟩

/-- Concrete availability record with every backend absent. -/
def cAvailOff : Availability := ⟨false, false, false, false⟩

/-- Concrete oracle collaborators used to exercise the dispatch layer. -/
def cExt : Ext :=
  ⟨fun s r => (s, r), fun _ _ _ => ((0, 0), 0), id, fun m _ => m, id,
   fun _ _ => (0, 0), fun m _ => m, fun _ s => ⟨s⟩,
   fun l => l.headD (.arr []), fun _ _ => ((fun p => (p.2, p.1)), 0)⟩

/-- A concrete bare-array image. -/
def cImgA : Image := .arr [[1, 2], [3, 4]]

/-- A concrete image carrier with a header. -/
def cImgH : Image := .hdu ⟨[[5, 6]], 7⟩

lemma pyMapLoop_ok_length {f : α → Except PyError β} :
    ∀ {l : List α} {outs : List β}, pyMapLoop f l = .ok outs →
      outs.length = l.length := by
  intro l
  induction l with
  | nil =>
    intro outs h
    simp only [pyMapLoop] at h
    cases h
    rfl
  | cons a rest ih =>
    intro outs h
    simp only [pyMapLoop] at h
    cases hfa : f a with
    | error e => rw [hfa] at h; cases h
    | ok b =>
      rw [hfa] at h
      cases hrec : pyMapLoop f rest with
      | error e => rw [hrec] at h; cases h
      | ok bs =>
        rw [hrec] at h
        cases h
        simp [ih hrec]

lemma pyMapLoop_ok_get {f : α → Except PyError β} :
    ∀ {l : List α} {outs : List β}, pyMapLoop f l = .ok outs →
      ∀ i (hi : i < l.length) (hi2 : i < outs.length),
        f (l.get ⟨i, hi⟩) = .ok (outs.get ⟨i, hi2⟩) := by
  intro l
  induction l with
  | nil =>
    intro outs h i hi hi2
    exact absurd hi (Nat.not_lt_zero i)
  | cons a rest ih =>
    intro outs h i hi hi2
    simp only [pyMapLoop] at h
    cases hfa : f a with
    | error e => rw [hfa] at h; cases h
    | ok b =>
      rw [hfa] at h
      cases hrec : pyMapLoop f rest with
      | error e => rw [hrec] at h; cases h
      | ok bs =>
        rw [hrec] at h
        cases h
        cases i with
        | zero => simpa using hfa
        | succ n =>
          have hn : n < rest.length := Nat.lt_of_succ_lt_succ hi
          have hn2 : n < bs.length := Nat.lt_of_succ_lt_succ hi2
          simpa using ih hrec n hn hn2

lemma pyMapLoop_ok_of_forall {f : α → Except PyError β} {g : α → β}
    (hfg : ∀ a, f a = .ok (g a)) :
    ∀ l : List α, pyMapLoop f l = .ok (l.map g) := by
  intro l
  induction l with
  | nil => simp [pyMapLoop]
  | cons a rest ih => simp [pyMapLoop, hfg a, ih]

deriving instance DecidableEq for Except

lemma align_list_eq (avail : Availability) (X : Ext) (l : List Image)
    (reference : Option Image) (method : String) :
    align avail X (.list l) reference method =
      match pyMapLoop (alignOne avail X (to_np (chosenRef X reference l)) method) l with
      | .error e => .error e
      | .ok outs => .ok (.list outs) := rfl

lemma align_single_eq (avail : Availability) (X : Ext) (img : Image)
    (reference : Option Image) (method : String) :
    align avail X (.single img) reference method =
      match alignOne avail X (to_np (chosenRef X reference [img])) method img with
      | .error e => .error e
      | .ok o => .ok (.single o) := by
  cases h : alignOne avail X (to_np (chosenRef X reference [img])) method img with
  | error e => simp [align, pyMapLoop, h]
  | ok o => simp [align, pyMapLoop, h]

/-- C1: a single (non-list) sources argument yields a single un-wrapped output,
namely the aligned output of that input; a list of length N yields a list of
length N whose i-th element is the aligned output of the i-th input. -/
theorem align_collection_shape (avail : Availability) (X : Ext)
    (reference : Option Image) (method : String) :
    (∀ img out, align avail X (.single img) reference method = .ok out →
      ∃ o, out = .single o ∧
        alignOne avail X (to_np (chosenRef X reference [img])) method img = .ok o) ∧
    (∀ l out, align avail X (.list l) reference method = .ok out →
      ∃ outs, out = .list outs ∧ outs.length = l.length ∧
        ∀ i (hi : i < l.length) (hi2 : i < outs.length),
          alignOne avail X (to_np (chosenRef X reference l)) method (l.get ⟨i, hi⟩) =
            .ok (outs.get ⟨i, hi2⟩)) := by
  constructor
  · intro img out h
    rw [align_single_eq] at h
    cases ha : alignOne avail X (to_np (chosenRef X reference [img])) method img with
    | error e => rw [ha] at h; cases h
    | ok o => rw [ha] at h; cases h; exact ⟨o, rfl, rfl⟩
  · intro l out h
    rw [align_list_eq] at h
    cases hp : pyMapLoop (alignOne avail X (to_np (chosenRef X reference l)) method) l with
    | error e => rw [hp] at h; cases h
    | ok outs =>
      rw [hp] at h
      cases h
      exact ⟨outs, rfl, pyMapLoop_ok_length hp,
        fun i hi hi2 => pyMapLoop_ok_get hp i hi hi2⟩

theorem align_collection_shape_witness :
    ∃ o, ImgArg.single cImgA = ImgArg.single o ∧
      alignOne cAvail cExt (to_np (chosenRef cExt none [cImgA])) ("astroalign") cImgA
        = .ok o :=
  (align_collection_shape cAvail cExt none ("astroalign")).1 cImgA
    (.single cImgA) (by decide)

lemma alignOne_variant {avail : Availability} {X : Ext} {np_ref : Mat}
    {method : String} {src out : Image}
    (h : alignOne avail X np_ref method src = .ok out) : variantMatches src out := by
  unfold alignOne at h
  cases hd : dispatchMethod avail X np_ref (to_np src) method with
  | error e => rw [hd] at h; cases h
  | ok m =>
    rw [hd] at h
    cases src with
    | arr a => cases h; trivial
    | hdu hh => cases h; simp [variantMatches]

/-- C2: every HDU (carrier-with-header) input produces an HDU output whose
header equals the input header, and every bare-array input produces a bare
array, for the single and the list calling conventions alike. -/
theorem align_variant_preserved (avail : Availability) (X : Ext)
    (reference : Option Image) (method : String) :
    (∀ img out, align avail X (.single img) reference method = .ok (.single out) →
      variantMatches img out) ∧
    (∀ l outs, align avail X (.list l) reference method = .ok (.list outs) →
      ∀ i (hi : i < l.length) (hi2 : i < outs.length),
        variantMatches (l.get ⟨i, hi⟩) (outs.get ⟨i, hi2⟩)) := by
  constructor
  · intro img out h
    rw [align_single_eq] at h
    cases ha : alignOne avail X (to_np (chosenRef X reference [img])) method img with
    | error e => rw [ha] at h; cases h
    | ok o => rw [ha] at h; cases h; exact alignOne_variant ha
  · intro l outs h i hi hi2
    rw [align_list_eq] at h
    cases hp : pyMapLoop (alignOne avail X (to_np (chosenRef X reference l)) method) l with
    | error e => rw [hp] at h; cases h
    | ok outs2 =>
      rw [hp] at h
      cases h
      exact alignOne_variant (pyMapLoop_ok_get hp i hi hi2)

theorem align_variant_preserved_witness : variantMatches cImgH cImgH :=
  (align_variant_preserved cAvail cExt none ("astroalign")).1 cImgH cImgH (by decide)

lemma dispatch_chi2 (avail : Availability) (X : Ext) (np_ref np_src : Mat) :
    dispatchMethod avail X np_ref np_src ("chi2") =
      .error (.valueError (DISABLED_fmt ("chi2") ("image_registration"))) := by
  unfold dispatchMethod
  rw [if_neg (by decide : ¬(("chi2" : String) = "astroalign")),
    if_neg (by decide : ¬(("chi2" : String) = "skimage")), if_pos rfl, ite_self]

/-- C3: the chi2 backend never returns a shifted copy of the current source:
in the source the shift is applied to the unbound name data, so the branch
raises NameError and the handler re-raises the DISABLED ValueError even when
every dependency is available. -/
theorem chi2_branch_never_shifts (avail : Availability) (X : Ext)
    (reference : Option Image) (img : Image) :
    align avail X (.single img) reference ("chi2") =
      .error (.valueError (DISABLED_fmt ("chi2") ("image_registration"))) := by
  rw [align_single_eq]
  unfold alignOne
  rw [dispatch_chi2]

/-- C4: selecting a method whose optional dependency was absent at load time
yields the DISABLED ValueError built from the method name and the module text
of the corresponding import guard, not a raw NameError crash. -/
theorem absent_dependency_disabled_error (avail : Availability) (X : Ext)
    (reference : Option Image) (img : Image) :
    (avail.astroalign = false →
      align avail X (.single img) reference ("astroalign") =
        .error (.valueError (DISABLED_fmt ("astroalign") ("astroalign")))) ∧
    (avail.skimage = false →
      align avail X (.single img) reference ("skimage") =
        .error (.valueError (DISABLED_fmt ("skimage") ("scipy or numpy")))) ∧
    (avail.chi2 = false →
      align avail X (.single img) reference ("chi2") =
        .error (.valueError (DISABLED_fmt ("chi2") ("image_registration")))) ∧
    (avail.imreg = false →
      align avail X (.single img) reference ("imreg") =
        .error (.valueError (DISABLED_fmt ("imreg") ("imreg_dft")))) := by
  refine ⟨fun h => ?_, fun h => ?_, fun h => ?_, fun h => ?_⟩ <;>
    rw [align_single_eq] <;> simp [alignOne, dispatchMethod, h]

theorem absent_dependency_disabled_error_witness :
    cAvailOff.astroalign = false ∧
      align cAvailOff cExt (.single cImgA) none ("astroalign") =
        .error (.valueError (DISABLED_fmt ("astroalign") ("astroalign"))) :=
  ⟨rfl, (absent_dependency_disabled_error cAvailOff cExt none cImgA).1 rfl⟩

/-- C5: any method name outside the four recognized ones makes align fail with
the unexpected-method ValueError whose message carries that name, for every
choice of backend oracles (so no backend is consulted), on single inputs and
on non-empty list inputs. -/
theorem unknown_method_invalid_argument (avail : Availability)
    (reference : Option Image) (method : String)
    (h : method ∉ (["astroalign", "skimage", "chi2", "imreg"] : List String)) :
    (∀ (X : Ext) (img : Image),
      align avail X (.single img) reference method =
        .error (.valueError ("Unexpected alignment method " ++ method ++ "!"))) ∧
    (∀ (X : Ext) (i : Image) (l : List Image),
      align avail X (.list (i :: l)) reference method =
        .error (.valueError ("Unexpected alignment method " ++ method ++ "!"))) := by
  have h1 : ¬(method = "astroalign") := fun e => h (by rw [e]; simp)
  have h2 : ¬(method = "skimage") := fun e => h (by rw [e]; simp)
  have h3 : ¬(method = "chi2") := fun e => h (by rw [e]; simp)
  have h4 : ¬(method = "imreg") := fun e => h (by rw [e]; simp)
  constructor
  · intro X img
    rw [align_single_eq]
    simp [alignOne, dispatchMethod, h1, h2, h3, h4]
  · intro X i l
    rw [align_list_eq]
    simp [pyMapLoop, alignOne, dispatchMethod, h1, h2, h3, h4]

theorem unknown_method_invalid_argument_witness :
    ("xyz" : String) ∉ (["astroalign", "skimage", "chi2", "imreg"] : List String) ∧
      align cAvail cExt (.single cImgA) none ("xyz") =
        .error (.valueError ("Unexpected alignment method " ++ "xyz" ++ "!")) :=
  ⟨by decide,
    (unknown_method_invalid_argument cAvail none ("xyz") (by decide)).1 cExt cImgA⟩

lemma medianQ_single (a : ℚ) : medianQ [a] = a := by
  simp [medianQ, sortQ, insertSorted]

lemma medianQ_pair (a b : ℚ) : medianQ [a, b] = (a + b) / 2 := by
  by_cases hab : a ≤ b
  · simp [medianQ, sortQ, insertSorted, hab]
  · simp [medianQ, sortQ, insertSorted, hab]
    ring

lemma range_map_getD (l : List α) (d : α) :
    (List.range l.length).map (fun i => l.getD i d) = l := by
  induction l with
  | nil => simp
  | cons a rest ih =>
    show (List.range (rest.length + 1)).map (fun i => (a :: rest).getD i d) = a :: rest
    rw [List.range_succ_eq_map, List.map_cons, List.map_map]
    show a :: (List.range rest.length).map (fun i => rest.getD i d) = a :: rest
    rw [ih]

lemma row_median_single (row : List ℚ) :
    (List.range row.length).map (fun j => medianQ [row.getD j 0]) = row := by
  have h : (List.range row.length).map (fun j => medianQ [row.getD j 0])
      = (List.range row.length).map (fun j => row.getD j 0) := by
    apply List.map_congr_left
    intro j _
    exact medianQ_single (row.getD j 0)
  rw [h, range_map_getD]

lemma npMedian_singleton (m : Mat) : npMedianAxis0 [m] = m := by
  unfold npMedianAxis0
  simp only [List.headD_cons, List.map_cons, List.map_nil]
  have h : (List.range m.length).map (fun i =>
        (List.range (m.getD i []).length).map (fun j => medianQ [(m.getD i []).getD j 0]))
      = (List.range m.length).map (fun i => m.getD i []) := by
    apply List.map_congr_left
    intro i _
    exact row_median_single (m.getD i [])
  rw [h, range_map_getD]

lemma row_median_pair : ∀ (ra rb : List ℚ), ra.length = rb.length →
    (List.range ra.length).map (fun j => medianQ [ra.getD j 0, rb.getD j 0]) =
      List.zipWith (fun a b => (a + b) / 2) ra rb := by
  intro ra
  induction ra with
  | nil =>
    intro rb h
    simp
  | cons a rest ih =>
    intro rb h
    cases rb with
    | nil => simp at h
    | cons b rest2 =>
      have hlen : rest.length = rest2.length := by simpa using h
      show (List.range (rest.length + 1)).map
          (fun j => medianQ [(a :: rest).getD j 0, (b :: rest2).getD j 0]) =
        List.zipWith (fun x y => (x + y) / 2) (a :: rest) (b :: rest2)
      rw [List.range_succ_eq_map, List.map_cons, List.map_map, List.zipWith_cons_cons]
      show medianQ [a, b] :: (List.range rest.length).map
          (fun j => medianQ [rest.getD j 0, rest2.getD j 0]) =
        (a + b) / 2 :: List.zipWith (fun x y => (x + y) / 2) rest rest2
      rw [medianQ_pair a b, ih rest2 hlen]

lemma med_pair_aux (A B : Mat)
    (h : List.Forall₂ (fun ra rb => ra.length = rb.length) A B) :
    (List.range A.length).map (fun i =>
      (List.range (A.getD i []).length).map (fun j =>
        medianQ [(A.getD i []).getD j 0, (B.getD i []).getD j 0])) =
      List.zipWith (List.zipWith (fun a b => (a + b) / 2)) A B := by
  induction h with
  | nil => simp
  | @cons ra rb A2 B2 hab htail ih =>
    show (List.range (A2.length + 1)).map (fun i =>
        (List.range (((ra :: A2).getD i []).length)).map (fun j =>
          medianQ [((ra :: A2).getD i []).getD j 0, ((rb :: B2).getD i []).getD j 0])) =
      List.zipWith (List.zipWith (fun a b => (a + b) / 2)) (ra :: A2) (rb :: B2)
    rw [List.range_succ_eq_map, List.map_cons, List.map_map, List.zipWith_cons_cons]
    show (List.range ra.length).map (fun j => medianQ [ra.getD j 0, rb.getD j 0]) ::
        (List.range A2.length).map (fun i =>
          (List.range ((A2.getD i []).length)).map (fun j =>
            medianQ [(A2.getD i []).getD j 0, (B2.getD i []).getD j 0])) =
      List.zipWith (fun a b => (a + b) / 2) ra rb ::
        List.zipWith (List.zipWith (fun a b => (a + b) / 2)) A2 B2
    rw [row_median_pair ra rb hab, ih]

lemma npMedian_pair (A B : Mat)
    (h : List.Forall₂ (fun ra rb => ra.length = rb.length) A B) :
    npMedianAxis0 [A, B] = List.zipWith (List.zipWith (fun a b => (a + b) / 2)) A B :=
  med_pair_aux A B h

/-- C7: combine with any method other than numpy fails with the
NotImplementedError carrying the source's message, before converting any input
and without producing an array. -/
theorem combine_unknown_method (hdu_s : ImgArg) (method : String)
    (h : method ≠ "numpy") :
    combine hdu_s method = .error (.notImplementedError
      ("Combine method other than numpy (swarp) \n        is unimplemented.")) := by
  cases hdu_s <;> simp [combine, h]

theorem combine_unknown_method_witness :
    combine (.single cImgA) ("xyz") = .error (.notImplementedError
      ("Combine method other than numpy (swarp) \n        is unimplemented.")) :=
  combine_unknown_method (.single cImgA) ("xyz") (by decide)

/-- C8: combine with method numpy on one image, passed bare or as a length-1
list, returns that image's numeric array unchanged: the pixel-wise median of a
single sample is the sample. -/
theorem combine_single_identity (img : Image) :
    combine (.single img) ("numpy") = .ok (to_np img) ∧
    combine (.list [img]) ("numpy") = .ok (to_np img) := by
  constructor <;> simp [combine, npMedian_singleton]

/-- C9: combine with method numpy on two same-shape images returns the
pixel-wise mean (the median of two samples), per pixel the half of the sum. -/
theorem combine_pair_mean (A B : Mat)
    (h : List.Forall₂ (fun ra rb => ra.length = rb.length) A B) :
    combine (.list [.arr A, .arr B]) ("numpy") =
      .ok (List.zipWith (List.zipWith (fun a b => (a + b) / 2)) A B) := by
  simp [combine, to_np, npMedian_pair A B h]

theorem combine_pair_mean_witness :
    combine (.list [.arr ([[1, 2], [3, 4]]), .arr ([[3, 4], [5, 6]])]) ("numpy") =
      .ok ([[2, 3], [4, 5]]) := by
  rw [combine_pair_mean ([[1, 2], [3, 4]]) ([[3, 4], [5, 6]]) (by simp)]
  norm_num

/-- A concrete two-record catalog. -/
def cCat1 : Catalog := ⟨[⟨1, 2, 5⟩, ⟨3, 4, 7⟩]⟩

/-- A concrete one-record catalog. -/
def cCat2 : Catalog := ⟨[⟨0, 0, 9⟩]⟩

/-- C6: on a non-empty catalog list with astroalign present, sources defaults
an absent reference to the first catalog and returns one aligned catalog per
input catalog, in input order, each holding exactly one transformed record per
input record with the record order preserved. -/
theorem sources_aligned_structure (avail : Availability) (X : Ext) (c : Catalog)
    (cs : List Catalog) (h : avail.astroalign = true) :
    sources avail X (c :: cs) none = sources avail X (c :: cs) (some c) ∧
    sources avail X (c :: cs) none =
      .ok ((c :: cs).map (fun cat =>
        cat.data.map (Source.transform
          (X.findTransform (cat.data.map (fun s => (s.x, s.y)))
            (c.data.map (fun r => (r.x, r.y)))).1))) ∧
    ∀ out, sources avail X (c :: cs) none = .ok out →
      out.length = (c :: cs).length ∧
      ∀ i (hi : i < (c :: cs).length) (hi2 : i < out.length),
        (out.get ⟨i, hi2⟩).length = ((c :: cs).get ⟨i, hi⟩).data.length := by
  have hmap : sources avail X (c :: cs) none =
      .ok ((c :: cs).map (fun cat =>
        cat.data.map (Source.transform
          (X.findTransform (cat.data.map (fun s => (s.x, s.y)))
            (c.data.map (fun r => (r.x, r.y)))).1))) := by
    unfold sources
    exact pyMapLoop_ok_of_forall (fun cat => if_pos h) (c :: cs)
  refine ⟨rfl, hmap, ?_⟩
  intro out hout
  rw [hmap] at hout
  cases hout
  constructor
  · simp
  · intro i hi hi2
    simp only [List.get_eq_getElem]
    rw [List.getElem_map]
    simp

theorem sources_aligned_structure_witness :
    cAvail.astroalign = true ∧
      sources cAvail cExt [cCat1, cCat2] none =
        .ok [[⟨2, 1, 5⟩, ⟨4, 3, 7⟩], [⟨0, 0, 9⟩]] := by
  refine ⟨rfl, ?_⟩
  rw [(sources_aligned_structure cAvail cExt cCat1 [cCat2] rfl).2.1]
  decide

/-- C10: when the astroalign import failed at load time, sources crashes with
the raw unresolved-name NameError at its point-matching call, for any reference
argument, instead of the DISABLED ValueError that align raises: there is no
dependency guard in the catalog aligner. -/
theorem sources_missing_astroalign_raw_crash (avail : Availability) (X : Ext)
    (c : Catalog) (cs : List Catalog) (reference : Option Catalog)
    (h : avail.astroalign = false) :
    sources avail X (c :: cs) reference =
      .error (.nameError ("name astroalign is not defined")) := by
  cases reference with
  | none => simp [sources, pyMapLoop, h]
  | some r => simp [sources, pyMapLoop, h]

theorem sources_missing_astroalign_raw_crash_witness :
    cAvailOff.astroalign = false ∧
      sources cAvailOff cExt [cCat1] none =
        .error (.nameError ("name astroalign is not defined")) :=
  ⟨rfl, sources_missing_astroalign_raw_crash cAvailOff cExt cCat1 [] none rfl⟩

end SDI
